import Mathlib

/-!
Shallow embedding of `src/python/jpegsnoop/jpeg_snoop_cli.py`
(Foka-Image-verification-Tool).

Bytes are modelled as `Nat` values (< 256 in well-formed data), byte strings
as `List Nat`.  Fallible Python code (functions raising `JpegParseError`)
is modelled with `Except String`, carrying the exact message strings of the
source.  The scanning loops of the source, whose offsets strictly increase,
are modelled with an explicit fuel argument so that every definition is
executable by kernel reduction; fuel exhaustion returns a distinguished
error message `"fuel exhausted"` that the Python code can never produce.
-/

/-! ### MD5 (the behaviour of Python's `hashlib.md5`)

`QuantTable.md5` calls `hashlib.md5(raw).hexdigest().upper()`.  We embed the
reference MD5 algorithm over byte lists: 512-bit chunks of 16 little-endian
32-bit words, 64 rounds per chunk, digest output as 16 little-endian bytes.
-/

def MD5.u32 (x : Nat) : Nat := x % 4294967296

def MD5.bnot (x : Nat) : Nat := Nat.xor x 4294967295

def MD5.rotl (x n : Nat) : Nat :=
  MD5.u32 ((x <<< n) ||| (x >>> (32 - n)))

/-- Per-round shift amounts of MD5. -/
def MD5.S : List Nat :=
  [7, 12, 17, 22, 7, 12, 17, 22, 7, 12, 17, 22, 7, 12, 17, 22,
   5, 9, 14, 20, 5, 9, 14, 20, 5, 9, 14, 20, 5, 9, 14, 20,
   4, 11, 16, 23, 4, 11, 16, 23, 4, 11, 16, 23, 4, 11, 16, 23,
   6, 10, 15, 21, 6, 10, 15, 21, 6, 10, 15, 21, 6, 10, 15, 21]

/-- Per-round additive constants of MD5 (binary integer parts of the sines). -/
def MD5.K : List Nat :=
  [0xd76aa478, 0xe8c7b756, 0x242070db, 0xc1bdceee,
   0xf57c0faf, 0x4787c62a, 0xa8304613, 0xfd469501,
   0x698098d8, 0x8b44f7af, 0xffff5bb1, 0x895cd7be,
   0x6b901122, 0xfd987193, 0xa679438e, 0x49b40821,
   0xf61e2562, 0xc040b340, 0x265e5a51, 0xe9b6c7aa,
   0xd62f105d, 0x02441453, 0xd8a1e681, 0xe7d3fbc8,
   0x21e1cde6, 0xc33707d6, 0xf4d50d87, 0x455a14ed,
   0xa9e3e905, 0xfcefa3f8, 0x676f02d9, 0x8d2a4c8a,
   0xfffa3942, 0x8771f681, 0x6d9d6122, 0xfde5380c,
   0xa4beea44, 0x4bdecfa9, 0xf6bb4b60, 0xbebfbc70,
   0x289b7ec6, 0xeaa127fa, 0xd4ef3085, 0x04881d05,
   0xd9d4d039, 0xe6db99e5, 0x1fa27cf8, 0xc4ac5665,
   0xf4292244, 0x432aff97, 0xab9423a7, 0xfc93a039,
   0x655b59c3, 0x8f0ccc92, 0xffeff47d, 0x85845dd1,
   0x6fa87e4f, 0xfe2ce6e0, 0xa3014314, 0x4e0811a1,
   0xf7537e82, 0xbd3af235, 0x2ad7d2bb, 0xeb86d391]

/-- One MD5 round: state is `(a, b, c, d)`, `M j` is the `j`-th message word
of the current chunk, `i` the round number. -/
def MD5.step (M : Nat → Nat) (st : Nat × Nat × Nat × Nat) (i : Nat) :
    Nat × Nat × Nat × Nat :=
  let a := st.1
  let b := st.2.1
  let c := st.2.2.1
  let d := st.2.2.2
  let fg : Nat × Nat :=
    if i < 16 then ((b &&& c) ||| (MD5.bnot b &&& d), i)
    else if i < 32 then ((d &&& b) ||| (MD5.bnot d &&& c), (5 * i + 1) % 16)
    else if i < 48 then (Nat.xor (Nat.xor b c) d, (3 * i + 5) % 16)
    else (Nat.xor c (b ||| MD5.bnot d), (7 * i) % 16)
  let t := MD5.u32 (fg.1 + a + MD5.K.getD i 0 + M fg.2)
  (d, MD5.u32 (b + MD5.rotl t (MD5.S.getD i 0)), b, c)

/-- Process one 64-byte chunk, updating the running hash state. -/
def MD5.processChunk (h : Nat × Nat × Nat × Nat) (chunk : List Nat) :
    Nat × Nat × Nat × Nat :=
  let M : Nat → Nat := fun j =>
    chunk.getD (4 * j) 0 + 256 * chunk.getD (4 * j + 1) 0 +
      65536 * chunk.getD (4 * j + 2) 0 + 16777216 * chunk.getD (4 * j + 3) 0
  let r := (List.range 64).foldl (MD5.step M) h
  (MD5.u32 (h.1 + r.1), MD5.u32 (h.2.1 + r.2.1),
   MD5.u32 (h.2.2.1 + r.2.2.1), MD5.u32 (h.2.2.2 + r.2.2.2))

/-- MD5 padding: append `0x80`, zero bytes up to 56 mod 64, then the original
bit length as a 64-bit little-endian value. -/
def MD5.pad (msg : List Nat) : List Nat :=
  let z := (56 + 64 - (msg.length + 1) % 64) % 64
  let bitLen := (8 * msg.length) % 18446744073709551616
  msg ++ [0x80] ++ List.replicate z 0 ++
    (List.range 8).map (fun i => (bitLen >>> (8 * i)) % 256)

/-- The MD5 hash of a byte list, as its 16 digest bytes. -/
def MD5.hash (msg : List Nat) : List Nat :=
  let padded := MD5.pad msg
  let n := padded.length / 64
  let h := (List.range n).foldl
    (fun h k => MD5.processChunk h ((padded.drop (64 * k)).take 64))
    (0x67452301, 0xefcdab89, 0x98badcfe, 0x10325476)
  [h.1, h.2.1, h.2.2.1, h.2.2.2].flatMap
    (fun w => (List.range 4).map (fun i => (w >>> (8 * i)) % 256))

/-- The lowercase hexadecimal digit character for a nibble, as produced by
`hexdigest` (codes 48-57 for 0-9 and 97-102 for a-f). -/
def hexCharLower (n : Nat) : Char :=
  if n < 10 then Char.ofNat (48 + n)
  else if n < 16 then Char.ofNat (87 + n)
  else '0'

/-- `hexdigest()` of a byte list: two lowercase hex characters per byte. -/
def hexDigest (bytes : List Nat) : String :=
  String.mk (bytes.flatMap (fun b => [hexCharLower (b / 16), hexCharLower (b % 16)]))

/-- Python's `str.upper()` on an ASCII string: uppercase each character. -/
def pyUpper (s : String) : String :=
  String.mk (s.data.map Char.toUpper)

/-! ### Data model -/

/-- `QuantTable` dataclass: `table_id`, `precision`, 64 coefficient `values`. -/
structure QuantTable where
  table_id : Nat
  precision : Nat
  values : List Nat
deriving DecidableEq, Repr, Inhabited

/-- The `md5` property of `QuantTable`:
`raw = bytes(values)` when `precision == 0`, else the values packed as
big-endian 16-bit words (`struct.pack(">H", v)`), then
`hashlib.md5(raw).hexdigest().upper()`. -/
def QuantTable.md5 (qt : QuantTable) : String :=
  let raw :=
    if qt.precision = 0 then qt.values
    else qt.values.flatMap (fun v => [v / 256 % 256, v % 256])
  pyUpper (hexDigest (MD5.hash raw))

/-- `SofData` dataclass. -/
structure SofData where
  precision : Nat
  height : Nat
  width : Nat
  component_count : Nat
deriving DecidableEq, Repr

/-- `Signature` dataclass (one record of the signature store). -/
structure Signature where
  make : String
  model : String
  notes : String
  hash_y : String
  hash_c : String
  layout : String
  software : String
  extra : String
deriving DecidableEq, Repr

/-- The dictionary produced by `Signature.to_dict` (digest fields dropped). -/
structure SigDict where
  make : String
  model : String
  notes : String
  layout : String
  software : String
  extra : String
deriving DecidableEq, Repr

/-- `Signature.to_dict`. -/
def Signature.to_dict (s : Signature) : SigDict :=
  { make := s.make, model := s.model, notes := s.notes,
    layout := s.layout, software := s.software, extra := s.extra }

/-- The `info_flags` dictionary of `parse_jpeg`. -/
structure InfoFlags where
  hasExif : Bool
  hasJFIF : Bool
  hasAdobe : Bool
deriving DecidableEq, Repr

/-! ### Low-level readers -/

/-- `read_uint16`: big-endian 16-bit read with an explicit bounds check. -/
def read_uint16 (data : List Nat) (offset : Nat) : Except String (Nat × Nat) :=
  if offset + 2 > data.length then
    .error "Unexpected end of data while reading uint16"
  else
    .ok (256 * data.getD offset 0 + data.getD (offset + 1) 0, offset + 2)

/-- `parse_quant_tables`: repeatedly read a one-byte header
(high nibble = precision, low nibble = table id), then 64 coefficients,
one byte each at precision 0 and big-endian 16-bit words otherwise.
The source walks an offset through `segment`; we consume the list directly,
with fuel bounding the number of loop iterations (each iteration consumes at
least 65 bytes, so `segment.length` fuel is always sufficient). -/
def parse_quant_tables : Nat → List Nat → Except String (List QuantTable)
  | _, [] => .ok []
  | 0, _ :: _ => .error "fuel exhausted"
  | fuel + 1, header :: rest =>
    let precision := header >>> 4
    let table_id := header &&& 0x0F
    let length := 64 * (if precision ≠ 0 then 2 else 1)
    let chunk := rest.take length
    if chunk.length ≠ length then .error "Incomplete DQT segment"
    else
      let values :=
        if precision = 0 then chunk
        else (List.range 64).map
          (fun j => 256 * chunk.getD (2 * j) 0 + chunk.getD (2 * j + 1) 0)
      match parse_quant_tables fuel (rest.drop length) with
      | .error e => .error e
      | .ok ts =>
        .ok ({ table_id := table_id, precision := precision, values := values } :: ts)

/-! ### The marker scanner (`parse_jpeg`) -/

/-- Number of leading `0xFF` bytes of a byte list (the inner fill-byte
skipping `while` loop of `parse_jpeg`, lines 180-181). -/
def countLeadingFF : List Nat → Nat
  | [] => 0
  | b :: bs => if b = 0xFF then countLeadingFF bs + 1 else 0

/-- The offset after skipping the run of `0xFF` fill bytes at `offset`. -/
def skipFF (data : List Nat) (offset : Nat) : Nat :=
  offset + countLeadingFF (data.drop offset)

/-- Lines 193-197 of the source: read the two-byte segment length, reject a
declared length below 2, and slice the payload.  Python's slice
`data[offset : offset + length - 2]` clamps at the end of the buffer, so the
payload may be shorter than `length - 2`; no bounds check follows. -/
def readSegment (data : List Nat) (offset : Nat) :
    Except String (Nat × List Nat × Nat) :=
  match read_uint16 data offset with
  | .error e => .error e
  | .ok (length, off2) =>
    if length < 2 then .error "Invalid segment length"
    else
      let segment_data := (data.drop off2).take (length - 2)
      .ok (length, segment_data, off2 + (length - 2))

/-- Insertion into the `quant_tables` dict: Python dicts replace the value
in place for an existing key and append new keys at the end. -/
def dictInsert (xs : List (Nat × QuantTable)) (k : Nat) (v : QuantTable) :
    List (Nat × QuantTable) :=
  if xs.any (fun p => p.1 = k) then
    xs.map (fun p => if p.1 = k then (k, v) else p)
  else xs ++ [(k, v)]

/-- The scanner state threaded through the `while` loop of `parse_jpeg`. -/
structure ScanState where
  sof : Option SofData
  tables : List (Nat × QuantTable)
  flags : InfoFlags
deriving DecidableEq, Repr

/-- `Exif\x00\x00`, `JFIF\x00`, `Adobe` prefixes tested by the APP branches. -/
def exifSig : List Nat := [0x45, 0x78, 0x69, 0x66, 0x00, 0x00]

def jfifSig : List Nat := [0x4A, 0x46, 0x49, 0x46, 0x00]

def adobeSig : List Nat := [0x41, 0x64, 0x6F, 0x62, 0x65]

/-- `bytes.startswith`. -/
def listStartsWith : List Nat → List Nat → Bool
  | [], _ => true
  | _ :: _, [] => false
  | p :: ps, b :: bs => p = b && listStartsWith ps bs

/-- The marker-scanning `while` loop of `parse_jpeg` (lines 175-220).
Each iteration strictly increases `offset`, so `data.length` fuel always
suffices; running out of fuel yields the impossible `"fuel exhausted"`. -/
def parseLoop : Nat → List Nat → Nat → ScanState → Except String ScanState
  | 0, data, offset, st =>
    if offset < data.length then .error "fuel exhausted" else .ok st
  | fuel + 1, data, offset, st =>
    if offset < data.length then
      if data.getD offset 0 ≠ 0xFF then parseLoop fuel data (offset + 1) st
      else
        let o1 := skipFF data offset
        if o1 ≥ data.length then .ok st
        else
          let marker := 0xFF00 ||| data.getD o1 0
          let o2 := o1 + 1
          if marker = 0xFFD9 then .ok st
          else if marker = 0xFF01 ∨ (0xFFD0 ≤ marker ∧ marker ≤ 0xFFD7) then
            parseLoop fuel data o2 st
          else
            match readSegment data o2 with
            | .error e => .error e
            | .ok (_, segment_data, o3) =>
              if marker = 0xFFDB then
                match parse_quant_tables segment_data.length segment_data with
                | .error e => .error e
                | .ok ts =>
                  parseLoop fuel data o3
                    { st with tables :=
                        ts.foldl (fun acc t => dictInsert acc t.table_id t) st.tables }
              else if marker = 0xFFC0 ∨ marker = 0xFFC1 ∨ marker = 0xFFC2 ∨
                  marker = 0xFFC3 then
                if segment_data.length < 6 then .error "Invalid SOF segment"
                else
                  let sof : SofData :=
                    { precision := segment_data.getD 0 0,
                      height := 256 * segment_data.getD 1 0 + segment_data.getD 2 0,
                      width := 256 * segment_data.getD 3 0 + segment_data.getD 4 0,
                      component_count := segment_data.getD 5 0 }
                  parseLoop fuel data o3 { st with sof := some sof }
              else if marker = 0xFFE1 ∧ listStartsWith exifSig segment_data then
                parseLoop fuel data o3
                  { st with flags := { st.flags with hasExif := true } }
              else if marker = 0xFFE0 ∧ listStartsWith jfifSig segment_data then
                parseLoop fuel data o3
                  { st with flags := { st.flags with hasJFIF := true } }
              else if marker = 0xFFEE ∧ listStartsWith adobeSig segment_data then
                parseLoop fuel data o3
                  { st with flags := { st.flags with hasAdobe := true } }
              else parseLoop fuel data o3 st
    else .ok st

/-- `parse_jpeg` on the byte content of the file: SOI check, marker scan,
missing-SOF check, and extraction of `(sof_data, list(quant_tables.values()),
info_flags)`. -/
def parse_jpeg (data : List Nat) :
    Except String (SofData × List QuantTable × InfoFlags) :=
  if data.length < 4 ∨ data.take 2 ≠ [0xFF, 0xD8] then
    .error "Not a valid JPEG (missing SOI marker)"
  else
    match parseLoop data.length data 2
        { sof := none, tables := [],
          flags := { hasExif := false, hasJFIF := false, hasAdobe := false } } with
    | .error e => .error e
    | .ok st =>
      match st.sof with
      | none => .error "Missing SOF0 marker; cannot read image dimensions"
      | some sof => .ok (sof, st.tables.map (fun p => p.2), st.flags)

/-! ### Signature matching and the tamper heuristic -/

/-- The match condition of `find_signature_matches` (lines 154-156):
`sig.hash_y == hash_y and (hash_c is None or sig.hash_c == hash_c)`. -/
def pairMatches (sig : Signature) (pair : String × Option String) : Bool :=
  sig.hash_y == pair.1 &&
    (match pair.2 with
     | none => true
     | some c => sig.hash_c == c)

/-- `find_signature_matches`: for each digest pair in order, append
`sig.to_dict` for every signature (in store order) satisfying the match
condition.  The nested `for` loops of the source build exactly this
concatenation. -/
def find_signature_matches (signatures : List Signature)
    (hash_pairs : List (String × Option String)) : List SigDict :=
  hash_pairs.flatMap
    (fun pair => (signatures.filter (fun sig => pairMatches sig pair)).map
      Signature.to_dict)

/-- Reason strings of `assess_tampering`. -/
def reasonExif : String :=
  "EXIF block missing; metadata may have been stripped or altered."

def reasonAdobe : String := "Adobe marker detected; file may have been edited."

def reasonNoMatch : String :=
  "Quantization signature not matched to a known camera profile."

def reasonClean : String := "No metadata anomalies detected."

/-- The result dictionary of `assess_tampering`. -/
structure TamperVerdict where
  suspected : Bool
  summary : String
  reasons : List String
deriving DecidableEq, Repr

/-- `assess_tampering`: build the reasons list by the three checks in order,
set `suspected` iff it is non-empty, and append the clean reason to the
(empty) list when not suspected. -/
def assess_tampering (info_flags : InfoFlags) (matchList : List SigDict) :
    TamperVerdict :=
  let reasons :=
    (if !info_flags.hasExif then [reasonExif] else []) ++
    (if info_flags.hasAdobe then [reasonAdobe] else []) ++
    (if matchList.isEmpty then [reasonNoMatch] else [])
  let suspected := !reasons.isEmpty
  let reasons := if !suspected then reasons ++ [reasonClean] else reasons
  { suspected := suspected,
    summary := if suspected then "Tampering suspected"
      else "No obvious tampering detected",
    reasons := reasons }

/-! ### Digest-pair generation (`summarize`, lines 259-264) -/

/-- `sorted(quant_tables, key=lambda qt: qt.table_id)`.  Python's sort is a
stable sort by key; on the id-keyed tables coming out of `parse_jpeg` all
ids are distinct, so insertion sort by id computes the same list. -/
def sortTables (tables : List QuantTable) : List QuantTable :=
  tables.insertionSort (fun a b => a.table_id ≤ b.table_id)

/-- The `for index, table in enumerate(ordered_tables)` loop: one
`(md5, None)` pair per table, and one `(md5, next.md5)` pair whenever a
successor exists. -/
def pairsOf : List QuantTable → List (String × Option String)
  | [] => []
  | [t] => [(t.md5, none)]
  | t :: t2 :: rest => (t.md5, none) :: (t.md5, some t2.md5) :: pairsOf (t2 :: rest)

/-- The `quant_hash_pairs` list built by `summarize`. -/
def quantHashPairs (tables : List QuantTable) : List (String × Option String) :=
  pairsOf (sortTables tables)

/-! ### Spec-side definitions

These definitions follow the words of the specification (not the source);
the claim theorems compare them against the source embedding above. -/

/-- Modelled from the spec (section 4.4): a digest pair "matches a signature
record when the record's luminance digest equals the pair's first digest AND
(the record's chrominance digest is a wildcard OR equals the pair's second
digest, when present)".  The store's sentinel/wildcard token is `"*"`
(section 9 describes the resource's "inline sentinel tokens"). -/
def specPairMatches (sig : Signature) (pair : String × Option String) : Prop :=
  sig.hash_y = pair.1 ∧
    (sig.hash_c = "*" ∨ pair.2 = none ∨ pair.2 = some sig.hash_c)

/-- The amended match condition: the record's luminance digest equals the
pair's first digest AND (the pair's second digest is absent OR the record's
chrominance digest equals it). -/
def amendedPairMatches (sig : Signature) (pair : String × Option String) : Prop :=
  sig.hash_y = pair.1 ∧ (pair.2 = none ∨ pair.2 = some sig.hash_c)

/-- Modelled from the spec (section 4.3): the canonical byte sequence of a
quantization table — the 64 coefficients one byte each at precision 0, and
as big-endian 16-bit values at precision 1. -/
def canonicalBytes (qt : QuantTable) : List Nat :=
  if qt.precision = 0 then qt.values
  else qt.values.flatMap (fun v => [v / 256 % 256, v % 256])

/-- The uppercase hexadecimal digit character for a nibble (codes 48-57 for
0-9 and 65-70 for A-F). -/
def hexCharUpper (n : Nat) : Char :=
  if n < 10 then Char.ofNat (48 + n)
  else if n < 16 then Char.ofNat (55 + n)
  else '0'

/-- Modelled from the spec (section 4.3): the uppercase hexadecimal encoding
of a byte sequence, two characters per byte. -/
def hexUpper (bytes : List Nat) : String :=
  String.mk (bytes.flatMap (fun b => [hexCharUpper (b / 16), hexCharUpper (b % 16)]))

/-- The declared two-byte big-endian length field at `offset`. -/
def declaredLen (data : List Nat) (offset : Nat) : Nat :=
  256 * data.getD offset 0 + data.getD (offset + 1) 0

/-! ### Concrete byte streams used by the counterexamples -/

/-- The sixteen-byte stream used against C2: SOI, a valid six-byte SOF0
payload, then a COM-like marker `FF FE` declaring length 16 (14 payload
bytes) with no bytes left in the buffer. -/
def c2data : List Nat :=
  [0xFF, 0xD8, 0xFF, 0xC0, 0x00, 0x08, 0x08, 0x00, 0x01, 0x00, 0x01, 0x01,
   0xFF, 0xFE, 0x00, 0x10]

/-- A 93-byte stream with two SOF0 segments: SOI; SOF0 declaring an
8-bit-precision 1-by-1 single-component frame; a DQT segment defining
table 0 with 64 coefficients of 7; SOF0 declaring a 2-by-2 frame; EOI. -/
def c3data : List Nat :=
  [0xFF, 0xD8] ++
  [0xFF, 0xC0, 0x00, 0x08, 0x08, 0x00, 0x01, 0x00, 0x01, 0x01] ++
  ([0xFF, 0xDB, 0x00, 0x43] ++ (0 :: List.replicate 64 7)) ++
  [0xFF, 0xC0, 0x00, 0x08, 0x08, 0x00, 0x02, 0x00, 0x02, 0x01] ++
  [0xFF, 0xD9]

instance (sig : Signature) (pair : String × Option String) :
    Decidable (amendedPairMatches sig pair) := by
  unfold amendedPairMatches
  infer_instance

/-! ### Helper lemmas -/

theorem toUpper_hexCharLower (n : Nat) :
    Char.toUpper (hexCharLower n) = hexCharUpper n := by
  unfold hexCharLower hexCharUpper
  by_cases h1 : n < 10
  · rw [if_pos h1, if_pos h1]
    interval_cases n <;> decide
  · by_cases h2 : n < 16
    · rw [if_neg h1, if_neg h1, if_pos h2, if_pos h2]
      interval_cases n <;> decide
    · rw [if_neg h1, if_neg h1, if_neg h2, if_neg h2]
      decide

theorem pyUpper_hexDigest (bytes : List Nat) :
    pyUpper (hexDigest bytes) = hexUpper bytes := by
  unfold pyUpper hexDigest hexUpper
  have : (String.mk (bytes.flatMap
      (fun b => [hexCharLower (b / 16), hexCharLower (b % 16)]))).data =
      bytes.flatMap (fun b => [hexCharLower (b / 16), hexCharLower (b % 16)]) := rfl
  rw [this, List.map_flatMap]
  simp only [List.map_cons, List.map_nil, toUpper_hexCharLower]

/-! ### Claim theorems -/

/-- C9: any input buffer shorter than 4 bytes is rejected with the
missing-SOI error, no matter its content — `parse_jpeg` tests
`len(data) < 4` before comparing the first two bytes. -/
theorem claim_C9 (data : List Nat) (h : data.length < 4) :
    parse_jpeg data = .error "Not a valid JPEG (missing SOI marker)" := by
  unfold parse_jpeg
  rw [if_pos (Or.inl h)]

/-- C9 witness: the two-byte file consisting of exactly the SOI marker
bytes `FF D8` is rejected as missing the SOI marker. -/
theorem claim_C9_witness :
    parse_jpeg [0xFF, 0xD8] = .error "Not a valid JPEG (missing SOI marker)" :=
  claim_C9 [0xFF, 0xD8] (by decide)

/-- C8: the digest depends only on the precision and the 64 coefficient
values — two tables agreeing on those have the same digest whatever their
identifiers or file positions, and the digest function is deterministic
(a pure function of the table). -/
theorem claim_C8 (t1 t2 : QuantTable) (hp : t1.precision = t2.precision)
    (hv : t1.values = t2.values) : t1.md5 = t2.md5 := by
  unfold QuantTable.md5
  rw [hp, hv]

/-- C8 witness: the same values at table ids 0 and 3 give the same digest. -/
theorem claim_C8_witness :
    (QuantTable.mk 0 0 (List.replicate 64 7)).md5 =
      (QuantTable.mk 3 0 (List.replicate 64 7)).md5 :=
  claim_C8 (QuantTable.mk 0 0 (List.replicate 64 7))
    (QuantTable.mk 3 0 (List.replicate 64 7)) rfl rfl

/-- C6: for precision 0 and precision 1, the digest is the uppercase
hexadecimal encoding of the 128-bit MD5 hash of the canonical byte
sequence (one byte per coefficient at precision 0, big-endian 16-bit words
at precision 1). -/
theorem claim_C6 (qt : QuantTable) (h : qt.precision = 0 ∨ qt.precision = 1) :
    qt.md5 = hexUpper (MD5.hash (canonicalBytes qt)) := by
  unfold QuantTable.md5 canonicalBytes
  rcases h with h | h <;> rw [h] <;> simp <;> exact pyUpper_hexDigest _

/-- C6 witness: a concrete 8-bit table. -/
theorem claim_C6_witness :
    (QuantTable.mk 0 0 (List.replicate 64 16)).md5 =
      hexUpper (MD5.hash (canonicalBytes (QuantTable.mk 0 0 (List.replicate 64 16)))) :=
  claim_C6 (QuantTable.mk 0 0 (List.replicate 64 16)) (Or.inl rfl)

/-- C4: the tamper heuristic.  `suspected` holds exactly when EXIF is
absent, Adobe is present, or there is no signature match; when suspected
the reasons are the triggered ones in the fixed order (EXIF, Adobe, no
match); when not suspected the reasons list is the single clean reason.
EXIF absent alone suffices for `suspected`, and EXIF present with Adobe
absent and at least one match yields `suspected = false`. -/
theorem claim_C4 (e j a : Bool) (ms : List SigDict) :
    ((assess_tampering ⟨e, j, a⟩ ms).suspected = (!e || a || ms.isEmpty)) ∧
    ((assess_tampering ⟨e, j, a⟩ ms).suspected = true →
      (assess_tampering ⟨e, j, a⟩ ms).reasons =
        (if !e then [reasonExif] else []) ++ (if a then [reasonAdobe] else []) ++
          (if ms.isEmpty then [reasonNoMatch] else [])) ∧
    ((assess_tampering ⟨e, j, a⟩ ms).suspected = false →
      (assess_tampering ⟨e, j, a⟩ ms).reasons = [reasonClean]) ∧
    ((assess_tampering ⟨false, j, a⟩ ms).suspected = true) ∧
    (∀ m ms2, (assess_tampering ⟨true, j, false⟩ (m :: ms2)).suspected = false) := by
  refine ⟨?_, ?_, ?_, ?_, ?_⟩ <;>
    cases e <;> cases a <;> cases ms <;>
      simp [assess_tampering]

/-- C4 witness: all flags false, no matches — suspected, with the EXIF and
no-match reasons in order. -/
theorem claim_C4_witness :
    (assess_tampering ⟨false, false, false⟩ []).reasons =
      [reasonExif] ++ [] ++ [reasonNoMatch] :=
  (claim_C4 false false false []).2.1 (by decide)

/-- C7: every table yielded by the DQT decoder has exactly 64 coefficients,
and a payload whose remainder after a table header is shorter than
`64 * (2 if precision else 1)` bytes is rejected as an incomplete DQT
segment. -/
theorem claim_C7 :
    (∀ fuel seg ts, parse_quant_tables fuel seg = .ok ts →
      ∀ t ∈ ts, t.values.length = 64) ∧
    (∀ fuel header rest,
      rest.length < 64 * (if header >>> 4 ≠ 0 then 2 else 1) →
      parse_quant_tables (fuel + 1) (header :: rest) =
        .error "Incomplete DQT segment") := by
  constructor
  · intro fuel
    induction fuel with
    | zero =>
      intro seg ts h t ht
      cases seg with
      | nil =>
        simp [parse_quant_tables] at h
        subst h
        cases ht
      | cons a l => simp [parse_quant_tables] at h
    | succ n ih =>
      intro seg ts h t ht
      cases seg with
      | nil =>
        simp [parse_quant_tables] at h
        subst h
        cases ht
      | cons header rest =>
        by_cases hp : header >>> 4 = 0 <;>
          simp only [parse_quant_tables, hp, ne_eq, not_true_eq_false,
            not_false_eq_true, ite_true, ite_false, if_pos, if_neg] at h <;>
          split at h <;> try cases h
        · rename_i hlen
          split at h
          · cases h
          · rename_i ts' hrec
            cases h
            cases ht with
            | head =>
              simp only [hp, ite_true]
              simp at hlen
              simp [List.length_take]
              omega
            | tail _ ht' => exact ih _ _ hrec t ht'
        · rename_i hlen
          split at h
          · cases h
          · rename_i ts' hrec
            cases h
            cases ht with
            | head =>
              simp [hp]
            | tail _ ht' => exact ih _ _ hrec t ht'
  · intro fuel header rest hshort
    by_cases hp : header >>> 4 = 0 <;>
      simp only [parse_quant_tables, hp, ne_eq, not_true_eq_false,
        not_false_eq_true, ite_true, ite_false] <;>
      rw [if_pos] <;> simp [List.length_take] <;> simp [hp] at hshort <;> omega

/-- C7 witness: a 65-byte payload decodes to one 64-coefficient table, and a
header announcing a 16-bit table followed by only 64 bytes is rejected. -/
theorem claim_C7_witness :
    (∀ t ∈ [QuantTable.mk 0 0 (List.replicate 64 7)], t.values.length = 64) ∧
    parse_quant_tables 1 (0x10 :: List.replicate 64 7) =
      .error "Incomplete DQT segment" :=
  ⟨claim_C7.1 65 (0 :: List.replicate 64 7)
      [QuantTable.mk 0 0 (List.replicate 64 7)] rfl,
   claim_C7.2 0 0x10 (List.replicate 64 7) (by decide)⟩

/-- C1 counterexample: a record whose chrominance digest is the wildcard
token `"*"` satisfies the claim's match condition against the pair
`("HY", some "HC")` (luminance digests equal, record chrominance digest a
wildcard), yet `find_signature_matches` reports no match — the code
compares `sig.hash_c == hash_c` literally and has no record-side wildcard
handling. -/
theorem claim_C1_counterexample :
    specPairMatches (Signature.mk "Make" "Model" "Notes" "HY" "*" "L" "S" "E")
      ("HY", some "HC") ∧
    find_signature_matches
      [Signature.mk "Make" "Model" "Notes" "HY" "*" "L" "S" "E"]
      [("HY", some "HC")] = [] :=
  ⟨⟨rfl, Or.inl rfl⟩, rfl⟩

theorem pairMatches_iff (sig : Signature) (pair : String × Option String) :
    pairMatches sig pair = true ↔ amendedPairMatches sig pair := by
  unfold pairMatches amendedPairMatches
  rcases pair with ⟨y, c⟩
  cases c with
  | none =>
    show (sig.hash_y == y && true) = true ↔
      sig.hash_y = y ∧ ((none : Option String) = none ∨ none = some sig.hash_c)
    simp [beq_iff_eq]
  | some v =>
    show (sig.hash_y == y && (sig.hash_c == v)) = true ↔
      sig.hash_y = y ∧ (some v = (none : Option String) ∨ some v = some sig.hash_c)
    simp only [Bool.and_eq_true, beq_iff_eq]
    constructor
    · rintro ⟨h1, h2⟩
      exact ⟨h1, Or.inr (congrArg some h2.symm)⟩
    · rintro ⟨h1, h2 | h2⟩
      · exact absurd h2 (Option.some_ne_none v)
      · injection h2 with h2
        exact ⟨h1, h2.symm⟩

theorem pairMatches_eq_decide (sig : Signature) (pair : String × Option String) :
    pairMatches sig pair = decide (amendedPairMatches sig pair) := by
  by_cases h : amendedPairMatches sig pair
  · rw [(pairMatches_iff sig pair).mpr h]
    simp [h]
  · rw [decide_eq_false h]
    cases hb : pairMatches sig pair
    · rfl
    · exact absurd ((pairMatches_iff sig pair).mp hb) h

/-- C1 amended: a digest pair matches a signature record exactly when the
record's luminance digest equals the pair's first digest AND (the pair's
second digest is absent OR the record's chrominance digest equals it);
`lookup` returns, pair by pair, the dictionaries of exactly the records
matching under this condition, in store order. -/
theorem claim_C1 (sigs : List Signature)
    (pairs : List (String × Option String)) :
    find_signature_matches sigs pairs =
      pairs.flatMap (fun p =>
        (sigs.filter (fun s => decide (amendedPairMatches s p))).map
          Signature.to_dict) := by
  unfold find_signature_matches
  simp only [pairMatches_eq_decide]

/-- C2 counterexample: the final marker of `c2data` declares length 16, so
its payload would need bytes up to offset 30 in a 16-byte buffer — yet the
parse succeeds with no `FormatError`: Python's payload slice
`data[offset : offset + length - 2]` silently clamps at the end of the
buffer, contradicting the claim that such a read fails. -/
theorem claim_C2_counterexample :
    parse_jpeg c2data =
      .ok (SofData.mk 8 1 1 1, [], InfoFlags.mk false false false) ∧
    declaredLen c2data 14 = 16 ∧ c2data.length = 16 :=
  ⟨rfl, rfl, rfl⟩

/-- C2 amended: the scanner fails with `FormatError` if reading the
two-byte length field would exceed the buffer, or if the declared length is
less than 2; reading the payload never fails — the payload is truncated at
the end of the buffer, so the decoded payload has
`min (declared_length - 2) (remaining bytes)` bytes, which equals
`declared_length - 2` exactly when the declared payload fits. -/
theorem claim_C2 (data : List Nat) (offset : Nat) :
    (data.length < offset + 2 →
      readSegment data offset =
        .error "Unexpected end of data while reading uint16") ∧
    (offset + 2 ≤ data.length → declaredLen data offset < 2 →
      readSegment data offset = .error "Invalid segment length") ∧
    (offset + 2 ≤ data.length → 2 ≤ declaredLen data offset →
      readSegment data offset =
        .ok (declaredLen data offset,
          (data.drop (offset + 2)).take (declaredLen data offset - 2),
          offset + 2 + (declaredLen data offset - 2)) ∧
      ((data.drop (offset + 2)).take (declaredLen data offset - 2)).length =
        min (declaredLen data offset - 2) (data.length - (offset + 2))) := by
  refine ⟨?_, ?_, ?_⟩
  · intro h
    unfold readSegment read_uint16
    rw [if_pos (by omega)]
  · intro h hlen
    unfold declaredLen at hlen
    unfold readSegment read_uint16
    rw [if_neg (by omega)]
    simp only
    rw [if_pos]
    exact hlen
  · intro h hlen
    constructor
    · unfold declaredLen at hlen
      unfold readSegment read_uint16 declaredLen
      rw [if_neg (by omega)]
      simp only
      rw [if_neg (by omega)]
    · rw [List.length_take, List.length_drop]

/-- C2 witness: a buffer declaring length 4 at offset 0 with its full
payload present decodes a payload of exactly `4 - 2` bytes. -/
theorem claim_C2_witness :
    readSegment [0, 4, 9, 9] 0 = .ok (4, [9, 9], 4) ∧
    ([9, 9] : List Nat).length = min 2 2 :=
  (claim_C2 [0, 4, 9, 9] 0).2.2 (by decide) (by decide)

/-- C3 counterexample: `c3data` contains two SOF0 segments, the first
declaring a 1-by-1 frame and the second a 2-by-2 frame.  The parse result
carries the frame data of the SECOND (last) SOF segment, not the first —
line 209 of the source overwrites `sof_data` unconditionally — while the
DQT segment between them is still processed. -/
theorem claim_C3_counterexample :
    parse_jpeg c3data =
      .ok (SofData.mk 8 2 2 1, [QuantTable.mk 0 0 (List.replicate 64 7)],
        InfoFlags.mk false false false) ∧
    SofData.mk 8 2 2 1 ≠ SofData.mk 8 1 1 1 :=
  ⟨rfl, by decide⟩

theorem getD_drop (l : List Nat) (n k : Nat) (d : Nat) :
    (l.drop n).getD k d = l.getD (n + k) d := by
  rw [List.getD_eq_getElem?_getD, List.getD_eq_getElem?_getD, List.getElem?_drop]

theorem readSegment_eq_ok (data : List Nat) (offset : Nat)
    (h2 : offset + 2 ≤ data.length) (hlen2 : 2 ≤ declaredLen data offset) :
    readSegment data offset =
      .ok (declaredLen data offset,
        (data.drop (offset + 2)).take (declaredLen data offset - 2),
        offset + 2 + (declaredLen data offset - 2)) := by
  unfold declaredLen at hlen2
  unfold readSegment read_uint16 declaredLen
  rw [if_neg (by omega)]
  simp only
  rw [if_neg (by omega)]

/-- C3 amended: processing a well-formed SOF0-SOF3 segment OVERWRITES the
frame data unconditionally — whatever `st.sof` held before, scanning
continues past the segment with `sof` replaced by the newly decoded frame
data, so the parse result carries the LAST SOF segment of the stream while
every marker after an SOF is still processed by the same continuing scan. -/
theorem claim_C3 (fuel : Nat) (data : List Nat) (offset : Nat) (st : ScanState)
    (m lh ll : Nat) (seg rest : List Nat)
    (hd : data.drop offset = [0xFF, m, lh, ll] ++ (seg ++ rest))
    (hm : m = 0xC0 ∨ m = 0xC1 ∨ m = 0xC2 ∨ m = 0xC3)
    (hL : 256 * lh + ll = seg.length + 2)
    (hseg : 6 ≤ seg.length) :
    parseLoop (fuel + 1) data offset st =
      parseLoop fuel data (offset + 4 + seg.length)
        { st with sof := some (SofData.mk (seg.getD 0 0)
            (256 * seg.getD 1 0 + seg.getD 2 0)
            (256 * seg.getD 3 0 + seg.getD 4 0) (seg.getD 5 0)) } := by
  have hget : ∀ k d, data.getD (offset + k) d =
      ([0xFF, m, lh, ll] ++ (seg ++ rest)).getD k d := by
    intro k d
    rw [← getD_drop, hd]
  have hlen : data.length = offset + 4 + seg.length + rest.length := by
    have h1 : (data.drop offset).length = data.length - offset :=
      List.length_drop offset data
    rw [hd] at h1
    simp [List.length_append] at h1
    omega
  have hoff : offset < data.length := by omega
  have h0 : data.getD offset 0 = 0xFF := by
    have := hget 0 0
    simpa using this
  have hm1 : data.getD (offset + 1) 0 = m := by
    have := hget 1 0
    simpa using this
  have hm2 : data.getD (offset + 2) 0 = lh := by
    have := hget 2 0
    simpa using this
  have hm3 : data.getD (offset + 3) 0 = ll := by
    have := hget 3 0
    simpa using this
  have hmff : m ≠ 0xFF := by
    rcases hm with rfl | rfl | rfl | rfl <;> decide
  have hskip : skipFF data offset = offset + 1 := by
    unfold skipFF
    rw [hd]
    simp [countLeadingFF, hmff]
  have hc : declaredLen data (offset + 2) = seg.length + 2 := by
    unfold declaredLen
    rw [show offset + 2 + 1 = offset + 3 from rfl, hm2, hm3]
    exact hL
  have hdrop4 : data.drop (offset + 4) = seg ++ rest := by
    have h1 : data.drop (offset + 4) = (data.drop offset).drop 4 := by
      rw [List.drop_drop]
    rw [h1, hd]
    rfl
  have hpayload : (data.drop (offset + 4)).take seg.length = seg := by
    rw [hdrop4]
    exact List.take_left seg rest
  have hread : readSegment data (offset + 2) =
      .ok (seg.length + 2, seg, offset + 2 + 2 + seg.length) := by
    rw [readSegment_eq_ok data (offset + 2) (by omega) (by rw [hc]; omega)]
    rw [hc]
    rw [show seg.length + 2 - 2 = seg.length from by omega]
    rw [show offset + 2 + 2 = offset + 4 from rfl, hpayload]
  rcases hm with rfl | rfl | rfl | rfl <;>
    (rw [parseLoop, if_pos hoff, if_neg (by rw [h0]; simp), hskip,
       if_neg (show ¬offset + 1 ≥ data.length by omega), hm1]
     rw [if_neg (by decide), if_neg (by decide), hread]
     dsimp only
     rw [if_neg (by decide), if_pos (by decide), if_neg (by omega)])

/-- C3 witness: a SOF0 segment declaring an 8-bit 1-by-1 one-component
frame replaces a previously decoded frame (9-by-9) in the scanner state. -/
theorem claim_C3_witness :
    parseLoop 1 [0xFF, 0xC0, 0x00, 0x08, 8, 0, 1, 0, 1, 1] 0
        (ScanState.mk (some (SofData.mk 9 9 9 9)) []
          (InfoFlags.mk false false false)) =
      parseLoop 0 [0xFF, 0xC0, 0x00, 0x08, 8, 0, 1, 0, 1, 1] 10
        (ScanState.mk (some (SofData.mk 8 1 1 1)) []
          (InfoFlags.mk false false false)) :=
  claim_C3 0 [0xFF, 0xC0, 0x00, 0x08, 8, 0, 1, 0, 1, 1] 0
    (ScanState.mk (some (SofData.mk 9 9 9 9)) [] (InfoFlags.mk false false false))
    0xC0 0x00 0x08 [8, 0, 1, 0, 1, 1] []
    rfl (Or.inl rfl) (by decide) (by decide)

theorem pairsOf_filter_none (l : List QuantTable) :
    (pairsOf l).filter (fun p => p.2.isNone) =
      l.map (fun t => (t.md5, none)) := by
  induction l with
  | nil => rfl
  | cons t ts ih =>
    cases ts with
    | nil => rfl
    | cons t2 rest => simp [pairsOf, List.filter_cons, ih]

theorem pairsOf_filter_some (l : List QuantTable) :
    (pairsOf l).filter (fun p => p.2.isSome) =
      (l.zip l.tail).map (fun tt => (tt.1.md5, some tt.2.md5)) := by
  induction l with
  | nil => rfl
  | cons t ts ih =>
    cases ts with
    | nil => rfl
    | cons t2 rest => simp [pairsOf, List.filter_cons, ih]

/-- C5: pair generation sorts the tables by table id ascending; the pairs
with an absent second digest are exactly one `(digest(t), none)` per table
(so `N` of them), the pairs with a present second digest are exactly the
adjacent `(digest(t_i), digest(t_i+1))` pairs (so `N - 1` of them); with no
tables, no pairs are generated and no matches are possible. -/
theorem claim_C5 (tables : List QuantTable) :
    List.Sorted (fun a b : QuantTable => a.table_id ≤ b.table_id)
      (sortTables tables) ∧
    (sortTables tables).length = tables.length ∧
    (quantHashPairs tables).filter (fun p => p.2.isNone) =
      (sortTables tables).map (fun t => (t.md5, none)) ∧
    (quantHashPairs tables).filter (fun p => p.2.isSome) =
      ((sortTables tables).zip (sortTables tables).tail).map
        (fun tt => (tt.1.md5, some tt.2.md5)) ∧
    ((quantHashPairs tables).filter (fun p => p.2.isNone)).length =
      tables.length ∧
    ((quantHashPairs tables).filter (fun p => p.2.isSome)).length =
      tables.length - 1 ∧
    (tables = [] → quantHashPairs tables = []) ∧
    (∀ sigs, find_signature_matches sigs (quantHashPairs []) = []) := by
  haveI : IsTotal QuantTable (fun a b => a.table_id ≤ b.table_id) :=
    ⟨fun a b => Nat.le_total _ _⟩
  haveI : IsTrans QuantTable (fun a b => a.table_id ≤ b.table_id) :=
    ⟨fun _ _ _ => Nat.le_trans⟩
  have hlen : (sortTables tables).length = tables.length :=
    List.length_insertionSort _ tables
  have hnone := pairsOf_filter_none (sortTables tables)
  have hsome := pairsOf_filter_some (sortTables tables)
  refine ⟨List.sorted_insertionSort _ tables, hlen, hnone, hsome, ?_, ?_,
    fun h => by rw [h]; rfl, fun sigs => rfl⟩
  · rw [show quantHashPairs tables = pairsOf (sortTables tables) from rfl,
      hnone, List.length_map, hlen]
  · rw [show quantHashPairs tables = pairsOf (sortTables tables) from rfl,
      hsome, List.length_map, List.length_zip, List.length_tail, hlen]
    omega

/-- C5 witness: with no tables, no pairs are generated. -/
theorem claim_C5_witness : quantHashPairs [] = [] :=
  (claim_C5 []).2.2.2.2.2.2.1 rfl

theorem getD_mem_of_lt (l : List QuantTable) (i : Nat) (h : i < l.length) :
    l.getD i default ∈ l := by
  rw [List.getD_eq_getElem?_getD, List.getElem?_eq_getElem h]
  exact List.getElem_mem h

theorem single_pair_mem (l : List QuantTable) (i : Nat) (h : i < l.length) :
    ((l.getD i default).md5, (none : Option String)) ∈ pairsOf l := by
  induction l generalizing i with
  | nil => simp at h
  | cons t ts ih =>
    cases ts with
    | nil =>
      have : i = 0 := by simp at h; omega
      subst this
      simp [pairsOf]
    | cons t2 rest =>
      cases i with
      | zero => simp [pairsOf]
      | succ j =>
        rw [List.getD_cons_succ, pairsOf]
        exact List.mem_cons_of_mem _
          (List.mem_cons_of_mem _ (ih j (by simpa using h)))

theorem double_pair_mem (l : List QuantTable) (i : Nat) (h : i + 1 < l.length) :
    ((l.getD i default).md5, some ((l.getD (i + 1) default).md5)) ∈
      pairsOf l := by
  induction l generalizing i with
  | nil => simp at h
  | cons t ts ih =>
    cases ts with
    | nil => simp at h
    | cons t2 rest =>
      cases i with
      | zero => simp [pairsOf]
      | succ j =>
        rw [List.getD_cons_succ, List.getD_cons_succ, pairsOf]
        exact List.mem_cons_of_mem _
          (List.mem_cons_of_mem _ (ih j (by simpa using h)))

theorem countP_flatMap_le (q : SigDict → Bool)
    (g : String × Option String → List SigDict) :
    ∀ (l : List (String × Option String)) (p : String × Option String),
      p ∈ l → (g p).countP q ≤ (l.flatMap g).countP q := by
  intro l p hp
  induction l with
  | nil => cases hp
  | cons a t ih =>
    rw [List.flatMap_cons, List.countP_append]
    rcases List.mem_cons.mp hp with rfl | hp2
    · exact Nat.le_add_right _ _
    · exact (ih hp2).trans (Nat.le_add_left _ _)

theorem countP_flatMap_two (q : SigDict → Bool)
    (g : String × Option String → List SigDict)
    (l : List (String × Option String)) (p1 p2 : String × Option String)
    (h1 : p1 ∈ l) (h2 : p2 ∈ l) (hne : p1 ≠ p2) :
    (g p1).countP q + (g p2).countP q ≤ (l.flatMap g).countP q := by
  induction l with
  | nil => cases h1
  | cons a t ih =>
    rw [List.flatMap_cons, List.countP_append]
    rcases List.mem_cons.mp h1 with rfl | h1b
    · rcases List.mem_cons.mp h2 with h2a | h2b
      · exact absurd h2a.symm hne
      · exact Nat.add_le_add_left (countP_flatMap_le q g t p2 h2b) _
    · rcases List.mem_cons.mp h2 with rfl | h2b
      · have := countP_flatMap_le q g t p1 h1b
        omega
      · have := ih h1b h2b
        omega

/-- C10: a record whose luminance digest is `digest(table_i)` and whose
chrominance digest is `digest(table_i+1)` for adjacent tables of the sorted
order occurs at least twice among the matches: once through the
single-digest pair `(digest(table_i), none)` — whose absent second digest
matches regardless of the record's chrominance digest — and once through
the double-digest pair `(digest(table_i), digest(table_i+1))`. -/
theorem claim_C10 (tables : List QuantTable) (signatures : List Signature)
    (sig : Signature) (i : Nat)
    (hmem : sig ∈ signatures)
    (hi : i + 1 < (sortTables tables).length)
    (hy : sig.hash_y = ((sortTables tables).getD i default).md5)
    (hc : sig.hash_c = ((sortTables tables).getD (i + 1) default).md5) :
    2 ≤ (find_signature_matches signatures (quantHashPairs tables)).countP
      (fun d => decide (d = sig.to_dict)) := by
  have hp1 := single_pair_mem (sortTables tables) i (by omega)
  have hp2 := double_pair_mem (sortTables tables) i hi
  have hne : ((((sortTables tables).getD i default).md5,
      (none : Option String))) ≠
      (((sortTables tables).getD i default).md5,
        some (((sortTables tables).getD (i + 1) default).md5)) := by
    simp
  have hmg : ∀ p : String × Option String, pairMatches sig p = true →
      1 ≤ ((signatures.filter (fun s => pairMatches s p)).map
        Signature.to_dict).countP (fun d => decide (d = sig.to_dict)) :=
    fun p hp => List.countP_pos_iff.mpr
      ⟨sig.to_dict,
       List.mem_map_of_mem _ (List.mem_filter.mpr ⟨hmem, hp⟩), by simp⟩
  have hm1 : pairMatches sig
      (((sortTables tables).getD i default).md5, none) = true := by
    show (sig.hash_y == ((sortTables tables).getD i default).md5 && true) = true
    rw [hy]
    simp
  have hm2 : pairMatches sig
      (((sortTables tables).getD i default).md5,
        some (((sortTables tables).getD (i + 1) default).md5)) = true := by
    show (sig.hash_y == ((sortTables tables).getD i default).md5 &&
      (sig.hash_c == ((sortTables tables).getD (i + 1) default).md5)) = true
    rw [hy, hc]
    simp
  show 2 ≤ ((pairsOf (sortTables tables)).flatMap (fun pair =>
    (signatures.filter (fun s => pairMatches s pair)).map
      Signature.to_dict)).countP (fun d => decide (d = sig.to_dict))
  have hfinal := countP_flatMap_two (fun d => decide (d = sig.to_dict))
    (fun pair => (signatures.filter (fun s => pairMatches s pair)).map
      Signature.to_dict)
    (pairsOf (sortTables tables))
    (((sortTables tables).getD i default).md5, none)
    (((sortTables tables).getD i default).md5,
      some (((sortTables tables).getD (i + 1) default).md5))
    hp1 hp2 hne
  simp only at hfinal
  have h1 := hmg _ hm1
  have h2 := hmg _ hm2
  omega

/-- C10 witness: with tables 0 and 1 and a store holding one record keyed
by both their digests, the record's dictionary occurs at least twice in the
match list. -/
theorem claim_C10_witness :
    2 ≤ (find_signature_matches
        [Signature.mk "Mk" "Md" "Nt" (QuantTable.mk 0 0 [1]).md5
          (QuantTable.mk 1 0 [2]).md5 "L" "S" "E"]
        (quantHashPairs [QuantTable.mk 0 0 [1], QuantTable.mk 1 0 [2]])).countP
      (fun d => decide (d =
        (Signature.mk "Mk" "Md" "Nt" (QuantTable.mk 0 0 [1]).md5
          (QuantTable.mk 1 0 [2]).md5 "L" "S" "E").to_dict)) :=
  claim_C10 [QuantTable.mk 0 0 [1], QuantTable.mk 1 0 [2]]
    [Signature.mk "Mk" "Md" "Nt" (QuantTable.mk 0 0 [1]).md5
      (QuantTable.mk 1 0 [2]).md5 "L" "S" "E"]
    (Signature.mk "Mk" "Md" "Nt" (QuantTable.mk 0 0 [1]).md5
      (QuantTable.mk 1 0 [2]).md5 "L" "S" "E")
    0 (List.mem_singleton.mpr rfl) (by decide) rfl rfl
